import Mathlib

/-
Verification of the Chest-Item-Locator storage extraction pipeline.

The development shallowly embeds the two parsing variants of the repository:
`chest_locator.py` (a hand-written NBT reader, region-file reader and storage
normalizer over native Python values) and `anvil_parser.py` (the storage
classifier and the recursive nested-item flattener over NBT tag objects).
Machine integers are modelled as `Nat`/`Int` with explicit signed decoding,
fallible code returns `Option`/`Except`, and the external decompression and
database layers are abstracted at their call boundary.
-/

/-- Model of the Python values produced by the NBT reader in chest_locator.py:
Python None, ints (Byte/Short/Int/Long tags), floats carried as raw IEEE bit
patterns, strings, lists, and insertion-ordered dicts. -/
inductive PyVal where
  | pynone : PyVal
  | int (n : Int) : PyVal
  | pfloat (single : Bool) (bits : Nat) : PyVal
  | str (s : String) : PyVal
  | list (xs : List PyVal) : PyVal
  | dict (es : List (String × PyVal)) : PyVal

/-- Python truthiness for the modelled values: None, 0, positive and negative
floating zero, the empty string, the empty list and the empty dict are falsy,
everything else truthy. -/
def pyTruthy : PyVal → Bool
  | .pynone => false
  | .int n => n != 0
  | .pfloat single bits => !(bits == 0 || bits == (if single then 2 ^ 31 else 2 ^ 63))
  | .str s => s != ""
  | .list xs => !xs.isEmpty
  | .dict es => !es.isEmpty

/-- Python `a or b` on modelled values. -/
def pyOr (a b : PyVal) : PyVal := if pyTruthy a then a else b

/-- Python `d.get(k)` on a dict: the value at the first (unique) binding of
`k`, or None when absent. -/
def dictGet (es : List (String × PyVal)) (k : String) : PyVal :=
  (es.lookup k).getD .pynone

/-- Python `k in d` on a dict. -/
def hasKeyB (es : List (String × PyVal)) (k : String) : Bool :=
  (es.lookup k).isSome

/-- Python `d[k] = v`: overwrite in place keeping insertion order, else append. -/
def dictSet : List (String × PyVal) → String → PyVal → List (String × PyVal)
  | [], k, v => [(k, v)]
  | (k0, v0) :: es, k, v =>
    if k0 == k then (k0, v) :: es else (k0, v0) :: dictSet es k v

/-- Python `s.split(sep)` over character lists, for a non-empty separator:
scan left to right, breaking at each non-overlapping occurrence. The fuel is
the input length plus one, which suffices because each step consumes at least
one character. -/
def pySplitAux (sep : List Char) : Nat → List Char → List Char → List (List Char)
  | 0, cur, _ => [cur.reverse]
  | fuel + 1, cur, rest =>
    if sep.isPrefixOf rest then
      cur.reverse :: pySplitAux sep fuel [] (rest.drop sep.length)
    else
      match rest with
      | [] => [cur.reverse]
      | c :: rs => pySplitAux sep fuel (c :: cur) rs

/-- Python `s.split(sep)` on strings (the separators used by the sources are
never empty). -/
def pySplit (s sep : String) : List String :=
  if sep == "" then [s]
  else (pySplitAux sep.data (s.data.length + 1) [] s.data).map String.mk

/-- Python `s.startswith(pre)`. -/
def pyStartsWith (s pre : String) : Bool := pre.data.isPrefixOf s.data

/-- A UTF-8 continuation byte. -/
def isCont (b : Nat) : Bool := 128 ≤ b && b < 192

/-- Strict UTF-8 decoding of a byte list (the semantics of Python
`bytes.decode("utf-8")`): rejects stray continuation bytes, overlong forms,
surrogate code points and values above U+10FFFF. The fuel argument is
instantiated with the byte count, which always suffices since every decoded
character consumes at least one byte. -/
def utf8DecodeAux : Nat → List Nat → Option (List Char)
  | _, [] => some []
  | 0, _ :: _ => none
  | fuel + 1, b :: rest =>
    if b < 128 then
      (utf8DecodeAux fuel rest).map (fun cs => Char.ofNat b :: cs)
    else if b < 194 then none
    else if b < 224 then
      match rest with
      | b1 :: r =>
        if isCont b1 then
          (utf8DecodeAux fuel r).map
            (fun cs => Char.ofNat ((b - 192) * 64 + (b1 - 128)) :: cs)
        else none
      | [] => none
    else if b < 240 then
      match rest with
      | b1 :: b2 :: r =>
        if (if b == 224 then decide (160 ≤ b1) && decide (b1 < 192)
            else if b == 237 then decide (128 ≤ b1) && decide (b1 < 160)
            else isCont b1) && isCont b2 then
          (utf8DecodeAux fuel r).map
            (fun cs => Char.ofNat ((b - 224) * 4096 + (b1 - 128) * 64 + (b2 - 128)) :: cs)
        else none
      | _ => none
    else if b < 245 then
      match rest with
      | b1 :: b2 :: b3 :: r =>
        if (if b == 240 then decide (144 ≤ b1) && decide (b1 < 192)
            else if b == 244 then decide (128 ≤ b1) && decide (b1 < 144)
            else isCont b1) && isCont b2 && isCont b3 then
          (utf8DecodeAux fuel r).map
            (fun cs =>
              Char.ofNat ((b - 240) * 262144 + (b1 - 128) * 4096 + (b2 - 128) * 64 + (b3 - 128)) :: cs)
        else none
      | _ => none
    else none

/-- Strict UTF-8 decoding of a byte list, or `none` when invalid. -/
def utf8Decode (bs : List Nat) : Option (List Char) := utf8DecodeAux bs.length bs

/-- Python `bytes.decode("latin1")`: each byte becomes the character with that
code point. Total: it never fails, one character per byte. -/
def latin1Str (bs : List Nat) : String := String.mk (bs.map Char.ofNat)

/-- The string decoding used by `NBTReader.read_string`: UTF-8 when valid,
otherwise single-byte-per-character latin-1. -/
def bestEffortDecode (raw : List Nat) : String :=
  match utf8Decode raw with
  | some cs => String.mk cs
  | none => latin1Str raw

/-- Embeds `NBTReader.read(n)`: exactly `n` bytes from position `pos`, failing (the
EOFError branch) when fewer remain. -/
def readN (buf : List Nat) (pos n : Nat) : Option (List Nat × Nat) :=
  if pos + n ≤ buf.length then some ((buf.drop pos).take n, pos + n) else none

/-- Big-endian value of a byte list. -/
def beNat (bs : List Nat) : Nat := bs.foldl (fun a b => a * 256 + b) 0

/-- Two's-complement reading of a `w`-bit big-endian value. -/
def sInt (w : Nat) (n : Nat) : Int :=
  if n ≥ 2 ^ (w - 1) then (n : Int) - 2 ^ w else (n : Int)

/-- Embeds `NBTReader.read_ubyte`. -/
def read_ubyte (buf : List Nat) (pos : Nat) : Option (Nat × Nat) :=
  (readN buf pos 1).map (fun p => (beNat p.1, p.2))

/-- Embeds `NBTReader.read_short` (signed 16-bit big-endian). -/
def read_short (buf : List Nat) (pos : Nat) : Option (Int × Nat) :=
  (readN buf pos 2).map (fun p => (sInt 16 (beNat p.1), p.2))

/-- Embeds `NBTReader.read_int` (signed 32-bit big-endian). -/
def read_int (buf : List Nat) (pos : Nat) : Option (Int × Nat) :=
  (readN buf pos 4).map (fun p => (sInt 32 (beNat p.1), p.2))

/-- Embeds `NBTReader.read_string`: a SIGNED 16-bit length (the source's
`read_short`); a negative length yields the empty string consuming only the
two length bytes; otherwise that many bytes are read and best-effort decoded. -/
def read_string (buf : List Nat) (pos : Nat) : Option (String × Nat) :=
  match read_short buf pos with
  | none => none
  | some (ln, p) =>
    if ln < 0 then some ("", p)
    else
      match readN buf p ln.toNat with
      | none => none
      | some (raw, q) => some (bestEffortDecode raw, q)

/-- Modelled from the spec (claim C6 as stated): a string payload is a 16-bit
UNSIGNED big-endian length followed by that many bytes, best-effort decoded.
Used only to exhibit where the source differs from the claim. -/
def read_string_unsigned_claim (buf : List Nat) (pos : Nat) : Option (String × Nat) :=
  match readN buf pos 2 with
  | none => none
  | some (bs, p) =>
    match readN buf p (beNat bs) with
    | none => none
    | some (raw, q) => some (bestEffortDecode raw, q)

/-- The 16-bit big-endian two's-complement length at `pos`, written out
declaratively from the amended claim words. -/
def specLen (buf : List Nat) (pos : Nat) : Int :=
  if 32768 ≤ buf.getD pos 0 * 256 + buf.getD (pos + 1) 0 then
    ((buf.getD pos 0 * 256 + buf.getD (pos + 1) 0 : Nat) : Int) - 65536
  else ((buf.getD pos 0 * 256 + buf.getD (pos + 1) 0 : Nat) : Int)

/-- The amended reading of claim C6, written declaratively from the corrected
words: read two bytes as a SIGNED big-endian 16-bit length; a negative length
yields the empty string; otherwise read exactly that many bytes and decode
them as UTF-8, falling back to single-byte-per-character latin-1 when the
bytes are not valid UTF-8. -/
def read_string_spec (buf : List Nat) (pos : Nat) : Option (String × Nat) :=
  if pos + 2 ≤ buf.length then
    if specLen buf pos < 0 then some ("", pos + 2)
    else if pos + 2 + (specLen buf pos).toNat ≤ buf.length then
      some (bestEffortDecode ((buf.drop (pos + 2)).take (specLen buf pos).toNat),
        pos + 2 + (specLen buf pos).toNat)
    else none
  else none

theorem take_two_drop (l : List Nat) (p : Nat) (h : p + 2 ≤ l.length) :
    (l.drop p).take 2 = [l.getD p 0, l.getD (p + 1) 0] := by
  induction l generalizing p with
  | nil => simp at h
  | cons a t ih =>
    cases p with
    | zero =>
      cases t with
      | nil => simp at h
      | cons b t2 => simp [List.getD]
    | succ p2 =>
      simp only [List.drop_succ_cons]
      have h2 : p2 + 2 ≤ t.length := by simpa [Nat.succ_le_succ_iff] using h
      rw [ih p2 h2]
      simp [List.getD]

theorem beNat_pair (a b : Nat) : beNat [a, b] = a * 256 + b := by
  simp [beNat, List.foldl]

/-- C6 counterexample: on the two bytes 0xFF 0xFF the source's `read_string`
reads a signed length -1 and returns the empty string, whereas the claimed
unsigned reading would demand 65535 payload bytes and fail on this buffer. -/
theorem c6_counterexample :
    read_string [255, 255] 0 = some ("", 2) ∧
      read_string_unsigned_claim [255, 255] 0 = none := by
  exact ⟨rfl, rfl⟩

/-- C6 (amended): the tagged-tree decoder reads a string payload as a SIGNED
16-bit big-endian length (a negative length yields the empty string, consuming
only the length bytes) followed by that many bytes decoded as UTF-8, and when
the bytes are not valid UTF-8 it falls back to a single-byte-per-character
decoding instead of failing the parse. -/
theorem c6_read_string_amended :
    (∀ buf pos, read_string buf pos = read_string_spec buf pos) ∧
      (∀ raw, utf8Decode raw = none → bestEffortDecode raw = latin1Str raw) ∧
      (∀ raw, (latin1Str raw).length = raw.length) := by
  refine ⟨?_, ?_, ?_⟩
  · intro buf pos
    by_cases h : pos + 2 ≤ buf.length
    · have h1 : readN buf pos 2 = some ([buf.getD pos 0, buf.getD (pos + 1) 0], pos + 2) := by
        unfold readN
        rw [if_pos h, take_two_drop buf pos h]
      have h2 : read_short buf pos = some (specLen buf pos, pos + 2) := by
        unfold read_short
        rw [h1]
        simp only [Option.map_some']
        rw [beNat_pair]
        unfold sInt specLen
        norm_num
      unfold read_string read_string_spec
      rw [h2, if_pos h]
      by_cases hneg : specLen buf pos < 0
      · simp only [if_pos hneg]
      · simp only [if_neg hneg]
        unfold readN
        by_cases h3 : pos + 2 + (specLen buf pos).toNat ≤ buf.length
        · simp only [if_pos h3]
        · simp only [if_neg h3]
    · have h1 : readN buf pos 2 = none := by
        unfold readN
        rw [if_neg h]
      unfold read_string read_string_spec read_short
      rw [h1, if_neg h]
      rfl
  · intro raw h
    unfold bestEffortDecode
    rw [h]
  · intro raw
    unfold latin1Str
    show (String.mk (raw.map Char.ofNat)).data.length = raw.length
    simp

/-- Embeds `NBTReader.read_byte` (signed 8-bit). -/
def read_byte (buf : List Nat) (pos : Nat) : Option (Int × Nat) :=
  (readN buf pos 1).map (fun p => (sInt 8 (beNat p.1), p.2))

/-- Embeds `NBTReader.read_long` (signed 64-bit big-endian). -/
def read_long (buf : List Nat) (pos : Nat) : Option (Int × Nat) :=
  (readN buf pos 8).map (fun p => (sInt 64 (beNat p.1), p.2))

/-- Embeds `NBTReader.read_float`: the raw 32-bit pattern, kept as bits. -/
def read_float (buf : List Nat) (pos : Nat) : Option (PyVal × Nat) :=
  (readN buf pos 4).map (fun p => (PyVal.pfloat true (beNat p.1), p.2))

/-- Embeds `NBTReader.read_double`: the raw 64-bit pattern, kept as bits. -/
def read_double (buf : List Nat) (pos : Nat) : Option (PyVal × Nat) :=
  (readN buf pos 8).map (fun p => (PyVal.pfloat false (beNat p.1), p.2))

/-- Reads `n` consecutive `w`-byte signed big-endian values (the int-array and
long-array comprehensions of `parse_payload`). -/
def readNumArray (buf : List Nat) (w : Nat) : Nat → Nat → Option (List PyVal × Nat)
  | pos, 0 => some ([], pos)
  | pos, n + 1 =>
    match readN buf pos w with
    | none => none
    | some (bs, p) =>
      (readNumArray buf w p n).map (fun q => (PyVal.int (sInt (8 * w) (beNat bs)) :: q.1, q.2))

mutual

/-- Embeds `NBTReader.parse_payload`: decodes one payload of NBT tag type `t` at
`pos`. The fuel bounds the recursion; callers pass the buffer length plus one,
which suffices because every recursive step consumes at least one byte.
Unknown tag types take the final ValueError branch (`none`). -/
def parse_payload : Nat → List Nat → Nat → Nat → Option (PyVal × Nat)
  | 0, _, _, _ => none
  | fuel + 1, buf, pos, t =>
    if t = 1 then (read_byte buf pos).map (fun p => (PyVal.int p.1, p.2))
    else if t = 2 then (read_short buf pos).map (fun p => (PyVal.int p.1, p.2))
    else if t = 3 then (read_int buf pos).map (fun p => (PyVal.int p.1, p.2))
    else if t = 4 then (read_long buf pos).map (fun p => (PyVal.int p.1, p.2))
    else if t = 5 then read_float buf pos
    else if t = 6 then read_double buf pos
    else if t = 7 then
      match read_int buf pos with
      | none => none
      | some (len, p) =>
        if len < 0 then none
        else
          match readN buf p len.toNat with
          | none => none
          | some (bs, q) => some (PyVal.list (bs.map (fun b => PyVal.int (b : Int))), q)
    else if t = 8 then (read_string buf pos).map (fun p => (PyVal.str p.1, p.2))
    else if t = 9 then
      match read_ubyte buf pos with
      | none => none
      | some (inner, p) =>
        match read_int buf p with
        | none => none
        | some (len, q) =>
          (parse_list fuel buf q inner len.toNat).map (fun r => (PyVal.list r.1, r.2))
    else if t = 10 then
      (parse_compound fuel buf pos []).map (fun r => (PyVal.dict r.1, r.2))
    else if t = 11 then
      match read_int buf pos with
      | none => none
      | some (len, p) =>
        (readNumArray buf 4 p len.toNat).map (fun r => (PyVal.list r.1, r.2))
    else if t = 12 then
      match read_int buf pos with
      | none => none
      | some (len, p) =>
        (readNumArray buf 8 p len.toNat).map (fun r => (PyVal.list r.1, r.2))
    else none
termination_by fuel _ _ _ => (fuel, 0)

/-- The list-payload loop of `parse_payload` (tag 9): `n` payloads of the
declared element type, no names. A negative declared length becomes zero
iterations, as in `range(length)`. -/
def parse_list : Nat → List Nat → Nat → Nat → Nat → Option (List PyVal × Nat)
  | _, _, pos, _, 0 => some ([], pos)
  | fuel, buf, pos, inner, n + 1 =>
    match parse_payload fuel buf pos inner with
    | none => none
    | some (v, p) =>
      (parse_list fuel buf p inner n).map (fun r => (v :: r.1, r.2))
termination_by fuel _ _ _ n => (fuel, n + 1)

/-- The compound-payload loop of `parse_payload` (tag 10): repeatedly reads a
type byte, stopping at TAG_End (0), else a name and a payload; `d[key] = v`
overwrites in insertion order. -/
def parse_compound : Nat → List Nat → Nat → List (String × PyVal) →
    Option (List (String × PyVal) × Nat)
  | 0, _, _, _ => none
  | fuel + 1, buf, pos, acc =>
    match read_ubyte buf pos with
    | none => none
    | some (t, p) =>
      if t = 0 then some (acc, p)
      else
        match read_string buf p with
        | none => none
        | some (k, p2) =>
          match parse_payload fuel buf p2 t with
          | none => none
          | some (v, p3) => parse_compound fuel buf p3 (dictSet acc k v)
termination_by fuel _ _ _ => (fuel, 1)

end

/-- Embeds `NBTReader.parse_root`: one type byte that must be TAG_Compound, one
throwaway root name, then the root compound payload. -/
def parse_root (d : List Nat) : Option PyVal :=
  match read_ubyte d 0 with
  | none => none
  | some (t, p) =>
    if t = 10 then
      match read_string d p with
      | none => none
      | some (_, p2) => (parse_payload (d.length + 1) d p2 10).map (fun q => q.1)
    else none

/-- The 4-byte big-endian header entry for grid slot `i` of a region file
(upper 24 bits sector offset, low 8 bits sector count). -/
def headerEntry (file : List Nat) (i : Nat) : Nat :=
  file.getD (4 * i) 0 * 16777216 + file.getD (4 * i + 1) 0 * 65536 +
    file.getD (4 * i + 2) 0 * 256 + file.getD (4 * i + 3) 0

/-- A positioned read of at most `n` bytes (Python `f.seek`/`f.read`, which
returns fewer bytes at end of file). -/
def extractBytes (file : List Nat) (pos n : Nat) : List Nat :=
  (file.drop pos).take n

/-- One iteration of the slot loop of `read_region_file`: `none` means the
slot is skipped (absent, truncated, zero length, unknown compression, failed
decompression, or failed NBT parse), `some` is its parsed root. The external
gzip and zlib decompressors are abstracted as `dec`, taking the compression
tag and the compressed bytes. -/
def processSlot (dec : Nat → List Nat → Option (List Nat)) (file : List Nat)
    (i : Nat) : Option PyVal :=
  if headerEntry file i / 256 = 0 then none
  else
    if (extractBytes file (headerEntry file i / 256 * 4096) 4).length < 4 then none
    else
      if beNat (extractBytes file (headerEntry file i / 256 * 4096) 4) = 0 then none
      else
        match extractBytes file (headerEntry file i / 256 * 4096 + 4) 1 with
        | [] => none
        | ct :: _ =>
          if ct = 1 ∨ ct = 2 then
            match dec ct (extractBytes file (headerEntry file i / 256 * 4096 + 5)
                (beNat (extractBytes file (headerEntry file i / 256 * 4096) 4) - 1)) with
            | none => none
            | some d => parse_root d
          else none

/-- Embeds `read_region_file` from chest_locator.py over a file's bytes: an
8192-byte header is required, then each of the 1024 grid slots is processed
independently, skipped slots contributing nothing. -/
def read_region_file (dec : Nat → List Nat → Option (List Nat))
    (file : List Nat) : List (Nat × PyVal) :=
  if file.length < 8192 then []
  else (List.range 1024).filterMap (fun i => (processSlot dec file i).map (fun v => (i, v)))

/-- The same file with slot `i` marked absent: its four header entry bytes
zeroed (a zero sector offset means the slot is unused). -/
def zeroEntry (file : List Nat) (i : Nat) : List Nat :=
  (((file.set (4 * i) 0).set (4 * i + 1) 0).set (4 * i + 2) 0).set (4 * i + 3) 0

theorem getD_set_ne (l : List Nat) (m n v d : Nat) (h : m ≠ n) :
    (l.set m v).getD n d = l.getD n d := by
  simp [List.getD_eq_getElem?_getD, List.getElem?_set_ne h]

theorem getD_set_self_zero (l : List Nat) (k : Nat) : (l.set k 0).getD k 0 = 0 := by
  rcases Nat.lt_or_ge k l.length with h | h
  · simp [List.getD_eq_getElem?_getD, List.getElem?_set_self h]
  · rw [List.set_eq_of_length_le h]
    simp [List.getD_eq_getElem?_getD, List.getElem?_eq_none h]

theorem zeroEntry_getD_outside (file : List Nat) (i m : Nat)
    (h : m < 4 * i ∨ 4 * i + 3 < m) :
    (zeroEntry file i).getD m 0 = file.getD m 0 := by
  unfold zeroEntry
  rw [getD_set_ne _ _ _ _ _ (by omega), getD_set_ne _ _ _ _ _ (by omega),
    getD_set_ne _ _ _ _ _ (by omega), getD_set_ne _ _ _ _ _ (by omega)]

theorem headerEntry_zeroEntry_ne (file : List Nat) (i j : Nat) (h : j ≠ i) :
    headerEntry (zeroEntry file i) j = headerEntry file j := by
  unfold headerEntry
  rw [zeroEntry_getD_outside file i (4 * j) (by omega),
    zeroEntry_getD_outside file i (4 * j + 1) (by omega),
    zeroEntry_getD_outside file i (4 * j + 2) (by omega),
    zeroEntry_getD_outside file i (4 * j + 3) (by omega)]

theorem headerEntry_zeroEntry_self (file : List Nat) (i : Nat) :
    headerEntry (zeroEntry file i) i = 0 := by
  have h0 : (zeroEntry file i).getD (4 * i) 0 = 0 := by
    unfold zeroEntry
    rw [getD_set_ne _ _ _ _ _ (by omega), getD_set_ne _ _ _ _ _ (by omega),
      getD_set_ne _ _ _ _ _ (by omega)]
    exact getD_set_self_zero file (4 * i)
  have h1 : (zeroEntry file i).getD (4 * i + 1) 0 = 0 := by
    unfold zeroEntry
    rw [getD_set_ne _ _ _ _ _ (by omega), getD_set_ne _ _ _ _ _ (by omega)]
    exact getD_set_self_zero _ (4 * i + 1)
  have h2 : (zeroEntry file i).getD (4 * i + 2) 0 = 0 := by
    unfold zeroEntry
    rw [getD_set_ne _ _ _ _ _ (by omega)]
    exact getD_set_self_zero _ (4 * i + 2)
  have h3 : (zeroEntry file i).getD (4 * i + 3) 0 = 0 := by
    unfold zeroEntry
    exact getD_set_self_zero _ (4 * i + 3)
  unfold headerEntry
  rw [h0, h1, h2, h3]

theorem extractBytes_zeroEntry (file : List Nat) (i pos n : Nat) (h : 4 * i + 3 < pos) :
    extractBytes (zeroEntry file i) pos n = extractBytes file pos n := by
  unfold extractBytes zeroEntry
  rw [List.drop_set_of_lt _ _ (by omega), List.drop_set_of_lt _ _ (by omega),
    List.drop_set_of_lt _ _ (by omega), List.drop_set_of_lt _ _ (by omega)]

theorem processSlot_zeroEntry_ne (dec : Nat → List Nat → Option (List Nat))
    (file : List Nat) (i j : Nat) (hi : i < 1024) (hij : j ≠ i) :
    processSlot dec (zeroEntry file i) j = processSlot dec file j := by
  unfold processSlot
  rw [headerEntry_zeroEntry_ne file i j hij]
  by_cases hoff : headerEntry file j / 256 = 0
  · rw [if_pos hoff, if_pos hoff]
  · have hone : 0 < headerEntry file j / 256 := Nat.pos_of_ne_zero hoff
    have h4096 : 4096 ≤ headerEntry file j / 256 * 4096 := Nat.le_mul_of_pos_left 4096 hone
    rw [extractBytes_zeroEntry file i _ 4 (by omega),
      extractBytes_zeroEntry file i _ 1 (by omega),
      extractBytes_zeroEntry file i _ _ (by omega)]

theorem processSlot_zeroEntry_self (dec : Nat → List Nat → Option (List Nat))
    (file : List Nat) (i : Nat) :
    processSlot dec (zeroEntry file i) i = none := by
  unfold processSlot
  rw [headerEntry_zeroEntry_self file i]
  simp

/-- C7: a failure in one grid slot (absent, truncated, unknown compression,
decompression failure or structural NBT decode failure all make `processSlot`
return `none`) is isolated: the region reader produces exactly the documents
it would produce if that slot were marked absent in the header, so no other
slot's output changes and the remaining slots are still processed. -/
theorem c7_slot_failure_isolated (dec : Nat → List Nat → Option (List Nat))
    (file : List Nat) (i : Nat) (hi : i < 1024)
    (hfail : processSlot dec file i = none) :
    read_region_file dec file = read_region_file dec (zeroEntry file i) := by
  unfold read_region_file
  rw [show (zeroEntry file i).length = file.length by unfold zeroEntry; simp]
  by_cases h : file.length < 8192
  · rw [if_pos h, if_pos h]
  · rw [if_neg h, if_neg h]
    refine List.filterMap_congr ?_
    intro j hj
    by_cases hji : j = i
    · subst hji
      rw [hfail, processSlot_zeroEntry_self]
    · rw [processSlot_zeroEntry_ne dec file i j hi hji]

/-- The everywhere-failing decompressor, standing in for gzip or zlib streams
that do not decompress. -/
def decNone : Nat → List Nat → Option (List Nat) := fun _ _ => none

/-- Region file bytes used as a witness: slot 0 is present (sector offset 1)
but its payload read is truncated, a structural decode failure for that slot. -/
def demoRegionFile : List Nat := [0, 0, 1, 0]

theorem c7_slot_failure_isolated_witness :
    processSlot decNone demoRegionFile 0 = none ∧
      read_region_file decNone demoRegionFile =
        read_region_file decNone (zeroEntry demoRegionFile 0) :=
  ⟨rfl, c7_slot_failure_isolated decNone demoRegionFile 0 (by decide) rfl⟩

/-- C10: a region file with fewer than 8192 bytes (truncated or missing
header) makes the reader return the empty document sequence, without raising
and without attempting to decode any slot. -/
theorem c10_short_header (dec : Nat → List Nat → Option (List Nat))
    (file : List Nat) (h : file.length < 8192) :
    read_region_file dec file = [] := by
  unfold read_region_file
  rw [if_pos h]

theorem c10_short_header_witness : read_region_file decNone [0, 1, 2] = [] :=
  c10_short_header decNone [0, 1, 2] (by decide)

/-- The STORAGE_IDS allow-list of chest_locator.py. -/
def STORAGE_IDS : List (List Char) :=
  ["minecraft:chest".data, "minecraft:trapped_chest".data, "minecraft:barrel".data,
    "minecraft:shulker_box".data, "minecraft:dispenser".data, "minecraft:dropper".data,
    "minecraft:hopper".data, "minecraft:furnace".data, "minecraft:blast_furnace".data,
    "minecraft:smoker".data]

/-- Python str.lower, modelled on the ASCII range. -/
def sLower (s : List Char) : List Char := s.map Char.toLower

/-- Embeds `is_storage_entity_id` from chest_locator.py: lower-case the id; when it
contains a colon, accept iff some allow-list entry is a PREFIX of it (the
source's `startswith` check); otherwise prepend the default namespace and
require exact allow-list membership. -/
def is_storage_entity_id (beid : List Char) : Bool :=
  if (sLower beid).contains ':' then
    STORAGE_IDS.any (fun s => s.isPrefixOf (sLower beid))
  else STORAGE_IDS.contains ("minecraft:".data ++ sLower beid)

/-- The STORAGE_BASE_TYPES allow-list of anvil_parser.py. -/
def STORAGE_BASE_TYPES : List (List Char) :=
  ["minecraft:chest".data, "minecraft:trapped_chest".data, "minecraft:barrel".data,
    "minecraft:shulker_box".data, "minecraft:dispenser".data, "minecraft:dropper".data,
    "minecraft:hopper".data, "minecraft:furnace".data, "minecraft:blast_furnace".data,
    "minecraft:smoker".data, "minecraft:chiseled_bookshelf".data, "minecraft:decorated_pot".data,
    "minecraft:brewing_stand".data, "minecraft:lectern".data, "minecraft:crafter".data,
    "minecraft:shelf".data]

/-- Matching semantics of `re.match` for the single compiled pattern of
anvil_parser.py (minecraft-colon, then one or more non-newline characters,
then the shulker-box suffix anchored at the end; the anchor also matches just
before one trailing newline). -/
def shulkerPatternMatch (s : List Char) : Bool :=
  let t := if s.getLast? == some '\n' then s.dropLast else s
  "minecraft:".data.isPrefixOf t && "_shulker_box".data.isSuffixOf t &&
    decide (23 ≤ t.length) && !((t.drop 10).take (t.length - 22)).contains '\n'

/-- Embeds `is_storage_block` from anvil_parser.py: case-sensitive exact allow-list
membership, else the shulker-box pattern. -/
def is_storage_block (block_id : List Char) : Bool :=
  if STORAGE_BASE_TYPES.contains block_id then true
  else shulkerPatternMatch block_id

/-- Modelled from the spec (claim C2 as stated): lower-case the identity, add
the default namespace prefix when no colon is present, then accept exactly the
allow-list members and anything ending in the shulker-box suffix. Used only to
exhibit where the source differs from the claim. -/
def storage_claim_classifier (allow : List (List Char)) (s : List Char) : Bool :=
  (if (sLower s).contains ':' then allow.contains (sLower s)
    else allow.contains ("minecraft:".data ++ sLower s)) ||
  "_shulker_box".data.isSuffixOf
    (if (sLower s).contains ':' then sLower s else "minecraft:".data ++ sLower s)

/-- Embeds `should_save_storage` from chest_locator.py, over a block entity dict. -/
def should_save_storage (be : List (String × PyVal)) : Bool :=
  if hasKeyB be "Items" || hasKeyB be "items" then true
  else if hasKeyB be "LootTable" && !hasKeyB be "Items" && !hasKeyB be "items" then false
  else true

/-- Embeds `is_valid_storage` from anvil_parser.py, over a block entity's key list. -/
def is_valid_storage (keys : List String) : Bool :=
  if keys.contains "Items" || keys.contains "items" then true
  else if keys.contains "LootTable" && !keys.contains "Items" && !keys.contains "items" then false
  else true

/-- Parses a run of decimal digits that may contain single underscores
strictly between digits (Python 3 int-literal grouping). The flag tracks
whether the previous character was a digit. -/
def digitsValAux : List Char → Bool → Nat → Option Nat
  | [], lastDigit, acc => if lastDigit then some acc else none
  | c :: cs, lastDigit, acc =>
    if c.isDigit then digitsValAux cs true (acc * 10 + (c.toNat - 48))
    else if c == '_' then
      if lastDigit then digitsValAux cs false acc else none
    else none

/-- Whitespace stripped by Python int(str). -/
def pyStrWs (c : Char) : Bool :=
  c == ' ' || c == '\t' || c == '\n' || c == '\r' || c == '\x0b' || c == '\x0c'

/-- Python `int(s)` on a string: strip whitespace, optional sign, decimal
digits with underscore grouping; `none` models ValueError. -/
def pyStrToInt (s : String) : Option Int :=
  match ((s.data.dropWhile pyStrWs).reverse.dropWhile pyStrWs).reverse with
  | '-' :: rest => (digitsValAux rest false 0).map (fun n => -(n : Int))
  | '+' :: rest => (digitsValAux rest false 0).map (fun n => (n : Int))
  | cs => (digitsValAux cs false 0).map (fun n => (n : Int))

/-- Python `int(f)` on a float held as IEEE bits: truncation toward zero;
`none` models the OverflowError/ValueError raised on infinities and NaNs. -/
def floatTrunc (single : Bool) (bits : Nat) : Option Int :=
  let manBits := if single then 23 else 52
  let expBits := if single then 8 else 11
  let bias := if single then 127 else 1023
  let e := bits / 2 ^ manBits % 2 ^ expBits
  let m := bits % 2 ^ manBits
  let sign := bits / 2 ^ (manBits + expBits) % 2
  if e = 2 ^ expBits - 1 then none
  else
    let mag : Nat :=
      if e < bias then 0
      else if e - bias ≤ manBits then (2 ^ manBits + m) / 2 ^ (manBits - (e - bias))
      else (2 ^ manBits + m) * 2 ^ (e - bias - manBits)
    some (if sign = 1 then -(mag : Int) else (mag : Int))

/-- Python `int(x)` over the modelled values; `none` models an exception
(TypeError for None, lists and dicts, ValueError for bad strings). -/
def pyToInt : PyVal → Option Int
  | .int n => some n
  | .str s => pyStrToInt s
  | .pfloat single bits => floatTrunc single bits
  | _ => none

/-- One extracted item row built by the normalize_storage loop. -/
structure CLItem where
  slot : Option Int
  item_id : String
  count : Int
  display_name : PyVal
  raw : PyVal

/-- One normalized storage record built by normalize_storage. -/
structure CLRecord where
  region_file : String
  chunk_index : Nat
  entity_id : PyVal
  x : Int
  y : Int
  z : Int
  items : List CLItem
  raw_nbt : PyVal

/-- The Count alias chain of normalize_storage (`Count`, then `count`, then
the literal 0). -/
def resolveCount (es : List (String × PyVal)) : PyVal :=
  pyOr (dictGet es "Count") (pyOr (dictGet es "count") (.int 0))

/-- The display-name resolution of the normalize_storage loop: a tag dict
with a truthy non-dict display value raises on `display.get`; a non-dict tag
skips the display lookup leaving None. -/
def displayNameSrc (es : List (String × PyVal)) : Except Unit PyVal :=
  match pyOr (dictGet es "tag") (.dict []) with
  | .dict td =>
    match pyOr (dictGet td "display") (.dict []) with
    | .dict dd => .ok (dictGet dd "Name")
    | _ => .error ()
  | _ => .ok .pynone

/-- The body of the per-item loop of `normalize_storage`: `ok none` models
`continue`, `error` models an uncaught exception escaping the loop (a truthy
non-string id reaching `startswith`, or a truthy non-dict display tag reaching
`display.get`). -/
def normalize_item (it : PyVal) : Except Unit (Option CLItem) :=
  match it with
  | .dict es =>
    match pyOr (dictGet es "id") (pyOr (dictGet es "Name") (.str "")) with
    | .str rid =>
      if rid == "" then .ok none
      else
        match displayNameSrc es with
        | .error e => .error e
        | .ok dn =>
          .ok (some
            { slot := match dictGet es "Slot" with | .int n => some n | _ => none
              item_id :=
                if pyStartsWith rid "minecraft:" then (pySplit rid "minecraft:").getD 1 ""
                else rid
              count := (pyToInt (resolveCount es)).getD 0
              display_name :=
                if pyTruthy dn then dn
                else .str (if pyStartsWith rid "minecraft:" then
                  (pySplit rid "minecraft:").getD 1 "" else rid)
              raw := it })
    | v => if pyTruthy v then .error () else .ok none
  | _ => .ok none

/-- Coercion-or-raise: Python `int(x)` used outside a try block. -/
def pyIntE (v : PyVal) : Except Unit Int :=
  match pyToInt v with
  | some n => .ok n
  | none => .error ()

/-- Python iteration over a value: lists yield elements, dicts yield their
keys, strings yield one-character strings, everything else raises TypeError. -/
def pyIter : PyVal → Except Unit (List PyVal)
  | .list xs => .ok xs
  | .dict es => .ok (es.map (fun e => PyVal.str e.1))
  | .str s => .ok (s.data.map (fun c => PyVal.str (String.mk [c])))
  | _ => .error ()

/-- Python `os.path.basename` as used on the region paths. -/
def pyBasename (path : String) : String := (pySplit path "/").getLastD path

/-- Embeds `normalize_storage` from chest_locator.py over a block entity dict:
id alias chain, x y z coerced by a bare `int(...)` (an exception there fails
the entity), Items alias chain, then the per-item loop. -/
def normalize_storage (es : List (String × PyVal)) (region_file : String)
    (chunk_index : Nat) : Except Unit CLRecord := do
  let be_id := pyOr (dictGet es "id") (pyOr (dictGet es "Id") (pyOr (dictGet es "ID") (.str "")))
  let x ← pyIntE (pyOr (dictGet es "x") (pyOr (dictGet es "X") (pyOr (dictGet es "posX") (.int 0))))
  let y ← pyIntE (pyOr (dictGet es "y") (pyOr (dictGet es "Y") (pyOr (dictGet es "posY") (.int 0))))
  let z ← pyIntE (pyOr (dictGet es "z") (pyOr (dictGet es "Z") (pyOr (dictGet es "posZ") (.int 0))))
  let elems ← pyIter (pyOr (dictGet es "Items") (pyOr (dictGet es "items") (.list [])))
  let items ← elems.foldlM
    (fun acc it => do
      match ← normalize_item it with
      | some row => pure (acc ++ [row])
      | none => pure acc)
    ([] : List CLItem)
  pure
    { region_file := pyBasename region_file, chunk_index := chunk_index, entity_id := be_id
      x := x, y := y, z := z, items := items, raw_nbt := .dict es }

/-- Python `k in v` for the container kinds reachable as a chunk level:
dict key membership, list element equality against the string, substring test
on strings; TypeError otherwise. -/
def pyContainsE (v : PyVal) (k : String) : Except Unit Bool :=
  match v with
  | .dict es => .ok (hasKeyB es k)
  | .list xs => .ok (xs.any (fun x => match x with | .str s => s == k | _ => false))
  | .str s => .ok (decide (List.IsInfix k.data s.data))
  | _ => .error ()

/-- Python `v[k]` with a string key: only dicts support it. -/
def pySubscriptE (v : PyVal) (k : String) : Except Unit PyVal :=
  match v with
  | .dict es => .ok (dictGet es k)
  | _ => .error ()

/-- One iteration of the key loop of `get_block_entities_from_chunk_nbt`:
`some` when `key in level` holds and the subscripted value is a list. -/
def tryLevelKey (level : PyVal) (k : String) : Except Unit (Option (List PyVal)) := do
  let c ← pyContainsE level k
  if c then do
    let v ← pySubscriptE level k
    match v with
    | .list xs => pure (some xs)
    | _ => pure none
  else pure none

/-- Embeds `get_block_entities_from_chunk_nbt` from chest_locator.py: normalize the
Level field, then return the first list-valued entry among the three
block-entity key spellings, else the empty list. -/
def get_block_entities_from_chunk_nbt (es : List (String × PyVal)) :
    Except Unit (List PyVal) := do
  let level := pyOr (dictGet es "Level") (pyOr (dictGet es "level") (.dict es))
  match ← tryLevelKey level "BlockEntities" with
  | some xs => pure xs
  | none =>
    match ← tryLevelKey level "block_entities" with
    | some xs => pure xs
    | none =>
      match ← tryLevelKey level "TileEntities" with
      | some xs => pure xs
      | none => pure []

/-- The per-chunk block-entity loop of `process_region_file`: id alias chain,
the two classifier filters, then normalization; a block entity that is not a
dict raises when its id is fetched. -/
def entity_records (path : String) (ci : Nat) (bes : List PyVal) :
    Except Unit (List CLRecord) :=
  bes.foldlM
    (fun acc be =>
      match be with
      | .dict es =>
        match pyOr (dictGet es "id") (pyOr (dictGet es "Id") (pyOr (dictGet es "ID") (.str ""))) with
        | .str s =>
          if !is_storage_entity_id s.data then pure acc
          else if !should_save_storage es then pure acc
          else do
            let r ← normalize_storage es path ci
            pure (acc ++ [r])
        | _ => pure acc
      | _ => .error ())
    ([] : List CLRecord)

/-- The pure record-producing part of `process_region_file` (everything except
the database writes): region decoding, chunk adaptation, classification and
normalization, as a function of the file bytes, the path and the abstracted
decompressor. -/
def process_region_records (dec : Nat → List Nat → Option (List Nat)) (path : String)
    (file : List Nat) : Except Unit (List CLRecord) :=
  (read_region_file dec file).foldlM
    (fun acc ci_nbt =>
      match ci_nbt with
      | (ci, .dict es) => do
        let bes ← get_block_entities_from_chunk_nbt es
        let rs ← entity_records path ci bes
        pure (acc ++ rs)
      | _ => .error ())
    ([] : List CLRecord)

theorem not_mem_of_contains_false {α : Type _} [BEq α] [LawfulBEq α] {l : List α} {a : α}
    (h : l.contains a = false) : a ∉ l := by
  intro hm
  simp only [List.contains] at h
  rw [List.elem_eq_true_of_mem hm] at h
  simp at h

/-- C1: for every block entity, both generation-state classifiers accept when
an item-list key (either casing) is present, reject when a loot-table key is
present without either item-list key, and accept when none of these keys is
present. -/
theorem c1_generation_state_classifier (be : List (String × PyVal)) (keys : List String) :
    ((hasKeyB be "Items" = true ∨ hasKeyB be "items" = true) → should_save_storage be = true) ∧
    ((hasKeyB be "LootTable" = true ∧ hasKeyB be "Items" = false ∧ hasKeyB be "items" = false) →
      should_save_storage be = false) ∧
    ((hasKeyB be "Items" = false ∧ hasKeyB be "items" = false ∧ hasKeyB be "LootTable" = false) →
      should_save_storage be = true) ∧
    ((keys.contains "Items" = true ∨ keys.contains "items" = true) →
      is_valid_storage keys = true) ∧
    ((keys.contains "LootTable" = true ∧ keys.contains "Items" = false ∧
      keys.contains "items" = false) → is_valid_storage keys = false) ∧
    ((keys.contains "Items" = false ∧ keys.contains "items" = false ∧
      keys.contains "LootTable" = false) → is_valid_storage keys = true) := by
  unfold should_save_storage is_valid_storage
  refine ⟨?_, ?_, ?_, ?_, ?_, ?_⟩
  · rintro (h | h) <;> simp [h]
  · rintro ⟨h1, h2, h3⟩
    simp [h1, h2, h3]
  · rintro ⟨h1, h2, h3⟩
    simp [h1, h2, h3]
  · rintro (h | h) <;> simp [List.elem_iff.mp h]
  · rintro ⟨h1, h2, h3⟩
    have hm1 : "LootTable" ∈ keys := List.elem_iff.mp h1
    have hm2 : "Items" ∉ keys := not_mem_of_contains_false h2
    have hm3 : "items" ∉ keys := not_mem_of_contains_false h3
    simp [hm1, hm2, hm3]
  · rintro ⟨h1, h2, h3⟩
    have hm1 : "Items" ∉ keys := not_mem_of_contains_false h1
    have hm2 : "items" ∉ keys := not_mem_of_contains_false h2
    have hm3 : "LootTable" ∉ keys := not_mem_of_contains_false h3
    simp [hm1, hm2, hm3]

theorem c1_generation_state_classifier_witness :
    should_save_storage [("Items", PyVal.list []), ("LootTable", PyVal.str "t")] = true ∧
      should_save_storage [("LootTable", PyVal.str "t")] = false ∧
      should_save_storage [("x", PyVal.int 1)] = true ∧
      is_valid_storage ["items"] = true ∧
      is_valid_storage ["LootTable"] = false ∧
      is_valid_storage ["id"] = true := by
  refine ⟨?_, ?_, ?_, ?_, ?_, ?_⟩
  · exact (c1_generation_state_classifier _ []).1 (Or.inl (by decide))
  · exact (c1_generation_state_classifier _ []).2.1 ⟨by decide, by decide, by decide⟩
  · exact (c1_generation_state_classifier _ []).2.2.1 ⟨by decide, by decide, by decide⟩
  · exact (c1_generation_state_classifier [] _).2.2.2.1 (Or.inr (by decide))
  · exact (c1_generation_state_classifier [] _).2.2.2.2.1 ⟨by decide, by decide, by decide⟩
  · exact (c1_generation_state_classifier [] _).2.2.2.2.2 ⟨by decide, by decide, by decide⟩

/-- C2 counterexample: the colored shulker box id is accepted by the claimed
classifier but rejected by chest_locator's (no suffix rule there, only a
prefix check, which conversely over-accepts extensions of allow-list entries),
and anvil_parser's classifier is case-sensitive with no implied namespace
prefix, rejecting the bare id the claim accepts. -/
theorem c2_counterexample :
    is_storage_entity_id "minecraft:blue_shulker_box".data = false ∧
      storage_claim_classifier STORAGE_IDS "minecraft:blue_shulker_box".data = true ∧
      is_storage_entity_id "minecraft:chestnut".data = true ∧
      storage_claim_classifier STORAGE_IDS "minecraft:chestnut".data = false ∧
      is_storage_block "chest".data = false ∧
      storage_claim_classifier STORAGE_BASE_TYPES "chest".data = true := by
  refine ⟨?_, ?_, ?_, ?_, ?_, ?_⟩ <;> decide

/-- C2 (amended): chest_locator's classifier lowercases the identity; when it
contains a colon it accepts exactly the identities having an allow-list entry
as a prefix (no shulker-box suffix rule), otherwise it prepends the default
namespace and requires exact allow-list membership. anvil_parser's classifier
is case-sensitive and adds no prefix: it accepts exactly its allow-list
members and the identities matching the anchored minecraft shulker-box
pattern. -/
theorem c2_type_classifier_amended (s : List Char) :
    (is_storage_entity_id s = true ↔
      (((sLower s).contains ':' = true ∧ ∃ b ∈ STORAGE_IDS, b <+: sLower s) ∨
        ((sLower s).contains ':' = false ∧ ("minecraft:".data ++ sLower s) ∈ STORAGE_IDS))) ∧
    (is_storage_block s = true ↔
      (s ∈ STORAGE_BASE_TYPES ∨ shulkerPatternMatch s = true)) := by
  constructor
  · unfold is_storage_entity_id
    by_cases h : (sLower s).contains ':' = true
    · rw [if_pos h]
      have hmem : ':' ∈ sLower s := List.elem_iff.mp h
      simp [hmem, List.any_eq_true]
    · rw [if_neg h]
      have h2 : (sLower s).contains ':' = false := by
        revert h
        cases (sLower s).contains ':' <;> simp
      have hmem : ':' ∉ sLower s := not_mem_of_contains_false h2
      simp [hmem, List.contains, List.elem_iff]
  · unfold is_storage_block
    by_cases h : STORAGE_BASE_TYPES.contains s = true
    · rw [if_pos h]
      have hm : s ∈ STORAGE_BASE_TYPES := by
        simpa [List.contains, List.elem_iff] using h
      simp [hm]
    · rw [if_neg h]
      have hm : s ∉ STORAGE_BASE_TYPES := by
        intro hmem
        exact h (by simpa [List.contains, List.elem_iff] using hmem)
      simp [hm]

/-- C9: the record-extraction pipeline (region decoding, chunk adaptation,
classification and normalization) is a pure function of the file's bytes,
the provenance path and the abstracted decompressor: decoding the same bytes
twice yields the identical ordered record sequence. In this embedding every
stage is a total function of its inputs, so determinism holds by
construction. -/
theorem c9_decode_deterministic (dec : Nat → List Nat → Option (List Nat))
    (path : String) (bytes1 bytes2 : List Nat) (h : bytes1 = bytes2) :
    process_region_records dec path bytes1 = process_region_records dec path bytes2 := by
  rw [h]

theorem c9_decode_deterministic_witness :
    process_region_records decNone "r.0.0.mca" demoRegionFile =
      process_region_records decNone "r.0.0.mca" demoRegionFile :=
  c9_decode_deterministic decNone "r.0.0.mca" demoRegionFile demoRegionFile rfl

/-- NBT tag objects as the nbt library hands them to anvil_parser.py:
numeric tags, string tags, list tags and compound tags. -/
inductive Tag where
  | num (n : Int) : Tag
  | str (s : String) : Tag
  | list (xs : List Tag) : Tag
  | comp (es : List (String × Tag)) : Tag

/-- Truthiness of a tag object: numeric tags define no length or bool hook so
they are always truthy; string, list and compound tags are truthy iff
non-empty. -/
def tagTruthy : Tag → Bool
  | .num _ => true
  | .str s => s != ""
  | .list xs => !xs.isEmpty
  | .comp es => !es.isEmpty

/-- The `.value` attribute of a tag: numeric and string tags carry their
value, list and compound tags report None. -/
inductive Val where
  | vnone : Val
  | vint (n : Int) : Val
  | vstr (s : String) : Val
deriving DecidableEq

/-- The `.value` attribute read. -/
def tagValue : Tag → Val
  | .num n => .vint n
  | .str s => .vstr s
  | _ => .vnone

/-- Python `a or b` over optional tags (a missing key gives None, which is
falsy; a falsy tag also falls through; the second operand is kept as is). -/
def orTag (a b : Option Tag) : Option Tag :=
  match a with
  | some t => if tagTruthy t then some t else b
  | none => b

/-- The `.value` access that feeds `trim_id` and the display name: the attribute
chain raises unless the tag exists and its value is a string. -/
def tagStrValueE : Option Tag → Except Unit String
  | some (.str s) => .ok s
  | _ => .error ()

/-- The `.value` access on a tag that must exist (`None.value` raises). -/
def tagValueE : Option Tag → Except Unit Val
  | some t => .ok (tagValue t)
  | none => .error ()

/-- Embeds `trim_id` from anvil_parser.py: the last piece of splitting on the
namespace separator. -/
def trim_id (item_id : String) : String :=
  (pySplit item_id "minecraft:").getLastD item_id

/-- One flattened item row of anvil_parser.py (the dict appended to the
shared items list): id, verbatim count value, slot value, display name. -/
structure AnvilItem where
  id : String
  count : Val
  slot : Val
  display_name : String
deriving DecidableEq

/-- The slot computation of `get_sub_storage_contents`: a present truthy slot
tag must hold a number and yields `slot_prepend - value`; an absent or falsy
slot yields the fixed sentinel -1 (NOT `slot_prepend - 1`); a truthy
non-numeric value makes the arithmetic raise. -/
def subSlotE (p : Int) (slotTag : Option Tag) : Except Unit Int :=
  match slotTag with
  | some t =>
    if tagTruthy t then
      match t with
      | .num n => .ok (p - n)
      | _ => .error ()
    else .ok (-1)
  | none => .ok (-1)

/-- The count and id source selection of `get_sub_storage_contents`: when a
truthy `item` sub-compound exists, fields come from it, else from the entry
itself; a truthy non-compound `item` value raises on `.get`. -/
def subFieldsE (es : List (String × Tag)) : Except Unit (Option Tag × Option Tag) :=
  match es.lookup "item" with
  | some t =>
    if tagTruthy t then
      match t with
      | .comp ies =>
        .ok (orTag (ies.lookup "Count") (ies.lookup "count"),
          orTag (ies.lookup "id") (orTag (ies.lookup "Id") (ies.lookup "ID")))
      | _ => .error ()
    else
      .ok (orTag (es.lookup "Count") (es.lookup "count"),
        orTag (es.lookup "id") (orTag (es.lookup "Id") (es.lookup "ID")))
  | none =>
    .ok (orTag (es.lookup "Count") (es.lookup "count"),
      orTag (es.lookup "id") (orTag (es.lookup "Id") (es.lookup "ID")))

/-- The nested-container component lookup shared by both flattener levels:
the first truthy entry among the four component keys, `none` when components
are absent or falsy; a truthy non-compound components value raises. -/
def containerOfE (es : List (String × Tag)) : Except Unit (Option Tag) :=
  match orTag (es.lookup "components") (es.lookup "Components") with
  | some ct =>
    if tagTruthy ct then
      match ct with
      | .comp ces =>
        .ok (orTag (ces.lookup "minecraft:container")
          (orTag (ces.lookup "container")
            (orTag (ces.lookup "minecraft:bundle_contents") (ces.lookup "bundle_contents"))))
      | _ => .error ()
    else .ok none
  | none => .ok none

/-- Embeds `get_sub_storage_contents` from anvil_parser.py, over the entries of one
nested container list. The accumulator is the shared `item_json` list the
source mutates; the final accumulator is returned. The Python function itself
returns None, and the source appends that return value to the same list after
every nested descent: that append is the explicit `++ [none]`. The per-item
`sub_count` is reset to 0 and used at most once, so every descent narrows the
base by exactly -1000. Fuel bounds nesting depth only (the entry loop is
structural) and exhausting it is an error, which never fires at the nesting
depths used in this development. -/
def get_sub_loop
    (descend : List Tag → Int → List (Option AnvilItem) → Except Unit (List (Option AnvilItem))) :
    List Tag → Int → List (Option AnvilItem) → Except Unit (List (Option AnvilItem))
  | [], _, acc => .ok acc
  | item :: rest, p, acc =>
    match item with
    | .comp es => do
      let slot ← subSlotE p (orTag (es.lookup "slot") (es.lookup "Slot"))
      let fields ← subFieldsE es
      let idS ← tagStrValueE fields.2
      let countV ← tagValueE fields.1
      let acc2 := acc ++ [some ⟨trim_id idS, countV, .vint slot, idS⟩]
      let contOpt ← containerOfE es
      match contOpt with
      | some c =>
        if tagTruthy c then
          match c with
          | .list xs => do
            let acc3 ← descend xs (p + 1 * -1000) acc2
            get_sub_loop descend rest p (acc3 ++ [none])
          | _ => .error ()
        else get_sub_loop descend rest p acc2
      | none => get_sub_loop descend rest p acc2
    | _ => .error ()

/-- Embeds `get_sub_storage_contents` proper: one fuel unit per nesting level; a
descent below the fuel bound is an error (never reached at the depths used
here). -/
def get_sub_storage_contents : Nat → List Tag → Int → List (Option AnvilItem) →
    Except Unit (List (Option AnvilItem))
  | 0 => get_sub_loop (fun _ _ _ => .error ())
  | fuel + 1 => get_sub_loop (get_sub_storage_contents fuel)

/-- The per-item loop of `get_all_storages` (the top, depth-0 level):
records take Count, Slot and id tag values verbatim (a missing key raises
when `.value` is accessed), and the n-th truthy nested container found across
the entity's items is flattened with base offset `n * -10000`. -/
def get_all_storages_items (fuel : Nat) :
    List Tag → Nat → List (Option AnvilItem) → Except Unit (List (Option AnvilItem))
  | [], _, acc => .ok acc
  | item :: rest, subCount, acc =>
    match item with
    | .comp es => do
      let idS ← tagStrValueE (orTag (es.lookup "id") (orTag (es.lookup "Id") (es.lookup "ID")))
      let countV ← tagValueE (orTag (es.lookup "Count") (es.lookup "count"))
      let slotV ← tagValueE (orTag (es.lookup "Slot") (es.lookup "slot"))
      let acc2 := acc ++ [some ⟨trim_id idS, countV, slotV, idS⟩]
      let contOpt ← containerOfE es
      match contOpt with
      | some c =>
        if tagTruthy c then
          match c with
          | .list xs => do
            let acc3 ← get_sub_storage_contents fuel xs (((subCount : Int) + 1) * -10000) acc2
            get_all_storages_items fuel rest (subCount + 1) acc3
          | _ => .error ()
        else get_all_storages_items fuel rest subCount acc2
      | none => get_all_storages_items fuel rest subCount acc2
    | _ => .error ()

/-- The flattened item list of one accepted block entity of
`get_all_storages`, starting from its Items tag list. -/
def extract_entity_items (fuel : Nat) (items_tag : List Tag) :
    Except Unit (List (Option AnvilItem)) :=
  get_all_storages_items fuel items_tag 0 []

/-- The produced list of a successful extraction (empty on error; the claims
evaluate it only on succeeding inputs). -/
def itemsOfOk : Except Unit (List (Option AnvilItem)) → List (Option AnvilItem)
  | .ok l => l
  | .error _ => []

/-- The flattened slot identifiers of the produced rows. -/
def slotsOf (l : List (Option AnvilItem)) : List Val :=
  l.filterMap (fun o => o.map AnvilItem.slot)

/-- A depth-1 test family item: a top-level slot plus the inner slots of its
nested container (`[]` meaning no or an empty container, which the source
treats identically: no descent, no counter increment). An inner `none` models
a stack without an explicit slot tag. -/
structure FamTop where
  slot : Int
  inner : List (Option Int)

/-- A container entry of the family, in the modern slot-plus-item component
form, with or without an explicit slot tag. -/
def mkEntry : Option Int → Tag
  | some t =>
    .comp [("slot", .num t), ("item", .comp [("Count", .num 1), ("id", .str "minecraft:stone")])]
  | none => .comp [("item", .comp [("Count", .num 1), ("id", .str "minecraft:stone")])]

/-- A top-level item stack of the family, carrying its container under the
minecraft:container component key. -/
def mkTop (f : FamTop) : Tag :=
  .comp [("Count", .num 1), ("Slot", .num f.slot), ("id", .str "minecraft:bundle"),
    ("components", .comp [("minecraft:container", .list (f.inner.map mkEntry))])]

/-- The row the source produces for one descended container entry under base
offset `p`: slot `p - inner` when the entry has an explicit slot, else the
fixed sentinel -1. -/
def innerRecord (p : Int) (o : Option Int) : AnvilItem :=
  { id := "stone", count := .vint 1,
    slot := .vint (match o with | some t => p - t | none => -1),
    display_name := "minecraft:stone" }

/-- The row the source produces for one top-level family stack. -/
def topRecord (s : Int) : AnvilItem :=
  { id := "bundle", count := .vint 1, slot := .vint s, display_name := "minecraft:bundle" }

/-- The flattened rows the source produces on the family, written from the
amended claim: the n-th nonempty container found (1-based, counted across the
entity) gets base offset `n * -10000`, and each descended row's slot is the
base minus its inner slot, or -1 when the inner stack has no explicit slot. -/
def expectedFrom : Nat → List FamTop → List (Option AnvilItem)
  | _, [] => []
  | n, f :: rest =>
    if f.inner.isEmpty then some (topRecord f.slot) :: expectedFrom n rest
    else
      some (topRecord f.slot) ::
        (f.inner.map (fun o => some (innerRecord (((n : Int) + 1) * -10000) o)) ++
          expectedFrom (n + 1) rest)

theorem get_sub_loop_family
    (descend : List Tag → Int → List (Option AnvilItem) → Except Unit (List (Option AnvilItem)))
    (ts : List (Option Int)) (p : Int) (acc : List (Option AnvilItem)) :
    get_sub_loop descend (ts.map mkEntry) p acc =
      .ok (acc ++ ts.map (fun o => some (innerRecord p o))) := by
  induction ts generalizing acc with
  | nil => simp [get_sub_loop]
  | cons o rest ih =>
    cases o with
    | some t =>
      have hstep : get_sub_loop descend ((some t :: rest).map mkEntry) p acc =
          get_sub_loop descend (rest.map mkEntry) p
            (acc ++ [some (innerRecord p (some t))]) := rfl
      rw [hstep, ih]
      simp
    | none =>
      have hstep : get_sub_loop descend ((none :: rest).map mkEntry) p acc =
          get_sub_loop descend (rest.map mkEntry) p
            (acc ++ [some (innerRecord p none)]) := rfl
      rw [hstep, ih]
      simp

theorem get_sub_family (fuel : Nat) (ts : List (Option Int)) (p : Int)
    (acc : List (Option AnvilItem)) :
    get_sub_storage_contents fuel (ts.map mkEntry) p acc =
      .ok (acc ++ ts.map (fun o => some (innerRecord p o))) := by
  cases fuel with
  | zero => exact get_sub_loop_family _ ts p acc
  | succ f => exact get_sub_loop_family _ ts p acc

theorem get_all_storages_items_family (fuel : Nat) (fs : List FamTop) (n : Nat)
    (acc : List (Option AnvilItem)) :
    get_all_storages_items fuel (fs.map mkTop) n acc = .ok (acc ++ expectedFrom n fs) := by
  induction fs generalizing n acc with
  | nil => simp [get_all_storages_items, expectedFrom]
  | cons f rest ih =>
    obtain ⟨s, inner⟩ := f
    cases inner with
    | nil =>
      have hstep :
          get_all_storages_items fuel (((⟨s, []⟩ : FamTop) :: rest).map mkTop) n acc =
            get_all_storages_items fuel (rest.map mkTop) n (acc ++ [some (topRecord s)]) := rfl
      rw [hstep, ih]
      simp [expectedFrom]
    | cons i0 irest =>
      have hstep :
          get_all_storages_items fuel (((⟨s, i0 :: irest⟩ : FamTop) :: rest).map mkTop) n acc =
            Except.bind
              (get_sub_storage_contents fuel ((i0 :: irest).map mkEntry)
                (((n : Int) + 1) * -10000) (acc ++ [some (topRecord s)]))
              (fun acc3 => get_all_storages_items fuel (rest.map mkTop) (n + 1) acc3) := rfl
      rw [hstep, get_sub_family]
      simp only [Except.bind]
      rw [ih]
      simp [expectedFrom]

/-- C3 counterexample: a descended stack without an explicit slot receives the
fixed sentinel -1, not base_offset - 1 = -10001 as the claim states. -/
theorem c3_counterexample :
    (itemsOfOk (extract_entity_items 100 [mkTop ⟨0, [none]⟩])).map
        (fun o => o.map AnvilItem.slot) =
      [some (Val.vint 0), some (Val.vint (-1))] ∧
      Val.vint (-1) ≠ Val.vint (-10000 - 1) := by
  exact ⟨by decide, by decide⟩

/-- C3 (amended): on the depth-1 family, the n-th nonempty nested container
(counted 1-based across the entity's stacks) is assigned base offset
n * -10000, every descended item's flattened slot is the base offset minus
its inner slot, and a descended stack without an explicit slot gets the FIXED
sentinel -1 rather than base offset - 1; in particular Scenario D holds: one
stack whose container holds two stacks at inner slots 0 and 1 yields the
outer row plus two inner rows with flattened slots -10000 - 0 and -10000 - 1,
not colliding with the outer stack's own slot. -/
theorem c3_nested_slot_assignment_amended :
    (∀ fuel fs, extract_entity_items fuel (fs.map mkTop) = .ok (expectedFrom 0 fs)) ∧
      (itemsOfOk (extract_entity_items 100 [mkTop ⟨7, [some 0, some 1]⟩])).map
          (fun o => o.map AnvilItem.slot) =
        [some (Val.vint 7), some (Val.vint (-10000 - 0)), some (Val.vint (-10000 - 1))] := by
  constructor
  · intro fuel fs
    unfold extract_entity_items
    rw [get_all_storages_items_family]
    simp
  · decide

/-- C4 counterexample: two independent sibling nested containers at depth 1
(held by two different stacks of the same storage) whose inner stacks lack
explicit slots: both descended rows get the fixed sentinel -1, so two items
of the flattened output share a slot identifier. -/
theorem c4_counterexample :
    ¬ (slotsOf (itemsOfOk (extract_entity_items 100
      [mkTop ⟨0, [none]⟩, mkTop ⟨1, [none]⟩]))).Nodup := by
  decide

/-- An item list whose single stack has a container whose entry itself has a
container: the smallest input reaching nesting depth two. -/
def c5_failing_items : List Tag :=
  [.comp [("Count", .num 1), ("Slot", .num 0), ("id", .str "minecraft:bundle"),
    ("components", .comp [("minecraft:container", .list
      [.comp [("slot", .num 0),
        ("item", .comp [("Count", .num 1), ("id", .str "minecraft:bundle")]),
        ("components", .comp [("minecraft:container", .list [mkEntry (some 0)])])]])])]]

/-- C5: at nesting depth two the source appends the recursive call's None
return value into the shared item list (the
`item_json.append(get_sub_storage_contents(...))` line), so the flattened
output contains a null entry after the depth-two rows; the downstream bulk
insert compensates by skipping falsy entries. -/
theorem c5_flattener_null_entry :
    Option.none ∈ itemsOfOk (extract_entity_items 100 c5_failing_items) ∧
      itemsOfOk (extract_entity_items 100 c5_failing_items) =
        [some (topRecord 0),
          some ⟨"bundle", .vint 1, .vint (-10000 - 0), "minecraft:bundle"⟩,
          some ⟨"stone", .vint 1, .vint (-11000 - 0), "minecraft:stone"⟩, none] := by
  exact ⟨by decide, by decide⟩

/-- C8 counterexample: anvil_parser's extractor performs no coercion: a stack
carrying a string-valued Count keeps the string verbatim instead of the
claimed integer 0, and a stack missing Count entirely aborts extraction of
the whole entity (None has no value attribute), where the claim demands a
safe default and no failure. -/
theorem c8_counterexample :
    extract_entity_items 10 [.comp [("Slot", .num 0), ("id", .str "minecraft:stone")]] =
        .error () ∧
      (itemsOfOk (extract_entity_items 10
          [.comp [("Slot", .num 0), ("id", .str "minecraft:stone"),
            ("Count", .str "abc")]])).map (fun o => o.map AnvilItem.count) =
        [some (.vstr "abc")] := by
  exact ⟨by rfl, by decide⟩

/-- The flattened slot identifiers the family produces, at the slot level:
the top slot of each stack, then for a stack with a nonempty container its
descended slots under base (n+1) * -10000. -/
def expSlots : Nat → List FamTop → List Val
  | _, [] => []
  | n, f :: rest =>
    if f.inner.isEmpty then Val.vint f.slot :: expSlots n rest
    else
      Val.vint f.slot ::
        (f.inner.map (fun o =>
          Val.vint (match o with | some t => ((n : Int) + 1) * -10000 - t | none => -1)) ++
          expSlots (n + 1) rest)

theorem slotsOf_cons_some (a : AnvilItem) (l : List (Option AnvilItem)) :
    slotsOf (some a :: l) = a.slot :: slotsOf l := by
  simp [slotsOf]

theorem slotsOf_append (l1 l2 : List (Option AnvilItem)) :
    slotsOf (l1 ++ l2) = slotsOf l1 ++ slotsOf l2 := by
  simp [slotsOf]

theorem slotsOf_map_inner (p : Int) (l : List (Option Int)) :
    slotsOf (l.map (fun o => some (innerRecord p o))) =
      l.map (fun o => Val.vint (match o with | some t => p - t | none => -1)) := by
  induction l with
  | nil => rfl
  | cons o rest ih =>
    rw [List.map_cons, slotsOf_cons_some, ih, List.map_cons]
    rfl

theorem slotsOf_expectedFrom (n : Nat) (fs : List FamTop) :
    slotsOf (expectedFrom n fs) = expSlots n fs := by
  induction fs generalizing n with
  | nil => simp [expectedFrom, expSlots, slotsOf]
  | cons f rest ih =>
    by_cases h : f.inner.isEmpty
    · simp only [expectedFrom, expSlots, if_pos h]
      rw [slotsOf_cons_some, ih]
      rfl
    · simp only [expectedFrom, expSlots, if_neg h]
      rw [slotsOf_cons_some, slotsOf_append, slotsOf_map_inner, ih]
      rfl

theorem expSlots_mem (n : Nat) (fs : List FamTop)
    (hin : ∀ f ∈ fs, ∀ o ∈ f.inner, o.isSome = true ∧ 0 ≤ o.getD 0 ∧ o.getD 0 < 10000) :
    ∀ v ∈ expSlots n fs,
      (∃ f ∈ fs, v = Val.vint f.slot) ∨
        ∃ m t : Int, (n : Int) + 1 ≤ m ∧ 0 ≤ t ∧ t < 10000 ∧ v = Val.vint (m * -10000 - t) := by
  induction fs generalizing n with
  | nil =>
    intro v hv
    simp [expSlots] at hv
  | cons f rest ih =>
    intro v hv
    have hrest : ∀ g ∈ rest, ∀ o ∈ g.inner, o.isSome = true ∧ 0 ≤ o.getD 0 ∧ o.getD 0 < 10000 :=
      fun g hg => hin g (List.mem_cons_of_mem f hg)
    by_cases h : f.inner.isEmpty
    · simp only [expSlots, if_pos h] at hv
      rcases List.mem_cons.mp hv with rfl | hv2
      · exact Or.inl ⟨f, List.mem_cons_self f _, rfl⟩
      · rcases ih n hrest v hv2 with ⟨g, hg, hvg⟩ | ⟨m, t, hm, ht0, ht1, hveq⟩
        · exact Or.inl ⟨g, List.mem_cons_of_mem f hg, hvg⟩
        · exact Or.inr ⟨m, t, hm, ht0, ht1, hveq⟩
    · simp only [expSlots, if_neg h] at hv
      rcases List.mem_cons.mp hv with rfl | hv2
      · exact Or.inl ⟨f, List.mem_cons_self f _, rfl⟩
      · rcases List.mem_append.mp hv2 with hv3 | hv3
        · rcases List.mem_map.mp hv3 with ⟨o, ho, rfl⟩
          rcases hin f (List.mem_cons_self f _) o ho with ⟨hsome, h0, h1⟩
          cases o with
          | none => simp at hsome
          | some t =>
            refine Or.inr ⟨(n : Int) + 1, t, le_refl _, ?_, ?_, rfl⟩
            · simpa using h0
            · simpa using h1
        · rcases ih (n + 1) hrest v hv3 with ⟨g, hg, hvg⟩ | ⟨m, t, hm, ht0, ht1, hveq⟩
          · exact Or.inl ⟨g, List.mem_cons_of_mem f hg, hvg⟩
          · refine Or.inr ⟨m, t, ?_, ht0, ht1, hveq⟩
            push_cast at hm ⊢
            omega

theorem expSlots_nodup (n : Nat) (fs : List FamTop)
    (htop : (fs.map FamTop.slot).Nodup)
    (htopnn : ∀ f ∈ fs, 0 ≤ f.slot)
    (hin : ∀ f ∈ fs, (∀ o ∈ f.inner, o.isSome = true ∧ 0 ≤ o.getD 0 ∧ o.getD 0 < 10000) ∧
      f.inner.Nodup) :
    (expSlots n fs).Nodup := by
  induction fs generalizing n with
  | nil => simp [expSlots]
  | cons f rest ih =>
    have htop2 : (f.slot :: rest.map FamTop.slot).Nodup := by simpa using htop
    have hnotmem : f.slot ∉ rest.map FamTop.slot := (List.nodup_cons.mp htop2).1
    have htoprest : (rest.map FamTop.slot).Nodup := (List.nodup_cons.mp htop2).2
    have htopnnrest : ∀ g ∈ rest, 0 ≤ g.slot := fun g hg => htopnn g (List.mem_cons_of_mem f hg)
    have hinrest : ∀ g ∈ rest,
        (∀ o ∈ g.inner, o.isSome = true ∧ 0 ≤ o.getD 0 ∧ o.getD 0 < 10000) ∧ g.inner.Nodup :=
      fun g hg => hin g (List.mem_cons_of_mem f hg)
    have hinrest1 : ∀ g ∈ rest, ∀ o ∈ g.inner,
        o.isSome = true ∧ 0 ≤ o.getD 0 ∧ o.getD 0 < 10000 := fun g hg => (hinrest g hg).1
    have hfs0 : 0 ≤ f.slot := htopnn f (List.mem_cons_self f _)
    by_cases h : f.inner.isEmpty
    · simp only [expSlots, if_pos h]
      rw [List.nodup_cons]
      refine ⟨?_, ih n htoprest htopnnrest hinrest⟩
      intro hmem
      rcases expSlots_mem n rest hinrest1 _ hmem with ⟨g, hg, hvg⟩ | ⟨m, t, hm, ht0, ht1, hveq⟩
      · have hfg : f.slot = g.slot := by simpa using hvg
        exact hnotmem (hfg ▸ List.mem_map_of_mem FamTop.slot hg)
      · have h1 : f.slot = m * -10000 - t := by simpa using hveq
        omega
    · simp only [expSlots, if_neg h]
      rw [List.nodup_cons]
      constructor
      · intro hmem
        rcases List.mem_append.mp hmem with hm1 | hm1
        · rcases List.mem_map.mp hm1 with ⟨o, ho, heq⟩
          rcases (hin f (List.mem_cons_self f _)).1 o ho with ⟨hsome, h0, h1⟩
          cases o with
          | none => simp at hsome
          | some t =>
            have hft : ((n : Int) + 1) * -10000 - t = f.slot := by simpa using heq
            have ht : (0 : Int) ≤ t := by simpa using h0
            omega
        · rcases expSlots_mem (n + 1) rest hinrest1 _ hm1 with ⟨g, hg, hvg⟩ | ⟨m, t, hm, ht0, ht1, hveq⟩
          · have hfg : f.slot = g.slot := by simpa using hvg
            exact hnotmem (hfg ▸ List.mem_map_of_mem FamTop.slot hg)
          · have h1 : f.slot = m * -10000 - t := by simpa using hveq
            push_cast at hm
            omega
      · apply List.Nodup.append
        · apply List.Nodup.map_on
          · intro x hx y hy hxy
            rcases (hin f (List.mem_cons_self f _)).1 x hx with ⟨hsx, hx0, hx1⟩
            rcases (hin f (List.mem_cons_self f _)).1 y hy with ⟨hsy, hy0, hy1⟩
            cases x with
            | none => simp at hsx
            | some tx =>
              cases y with
              | none => simp at hsy
              | some ty =>
                have hxy2 : ((n : Int) + 1) * -10000 - tx = ((n : Int) + 1) * -10000 - ty := by
                  simpa using hxy
                have : tx = ty := by omega
                rw [this]
          · exact (hin f (List.mem_cons_self f _)).2
        · exact ih (n + 1) htoprest htopnnrest hinrest
        · intro v hv1 hv2
          rcases List.mem_map.mp hv1 with ⟨o, ho, heq⟩
          rcases (hin f (List.mem_cons_self f _)).1 o ho with ⟨hsome, h0, h1⟩
          cases o with
          | none => simp at hsome
          | some t =>
            rw [← heq] at hv2
            have ht0 : (0 : Int) ≤ t := by simpa using h0
            have ht1 : t < 10000 := by simpa using h1
            rcases expSlots_mem (n + 1) rest hinrest1 _ hv2 with
              ⟨g, hg, hvg⟩ | ⟨m, t2, hm2, h20, h21, hveq⟩
            · have hgs : ((n : Int) + 1) * -10000 - t = g.slot := by simpa using hvg
              have := htopnnrest g hg
              omega
            · have he : ((n : Int) + 1) * -10000 - t = m * -10000 - t2 := by simpa using hveq
              push_cast at hm2
              omega

/-- C4 (amended): the flattened slots are collision free only on a restricted
domain: for a storage whose top-level stacks carry distinct non-negative
explicit slots, where each stack holds at most a depth-1 nested container and
every descended stack carries an explicit slot in [0, 9999] distinct within
its container, no two items of the flattened output share a slot identifier.
Outside this domain the scheme collides: descended stacks without explicit
slots all share -1 (see the counterexample), and sibling containers at depth
2 inside different parent stacks share a base offset since the per-item
counter resets. -/
theorem c4_sibling_container_slots_amended (fuel : Nat) (fs : List FamTop)
    (htop : (fs.map FamTop.slot).Nodup)
    (htopnn : ∀ f ∈ fs, 0 ≤ f.slot)
    (hin : ∀ f ∈ fs, (∀ o ∈ f.inner, o.isSome = true ∧ 0 ≤ o.getD 0 ∧ o.getD 0 < 10000) ∧
      f.inner.Nodup) :
    (slotsOf (itemsOfOk (extract_entity_items fuel (fs.map mkTop)))).Nodup := by
  unfold extract_entity_items
  rw [get_all_storages_items_family]
  show (slotsOf ([] ++ expectedFrom 0 fs)).Nodup
  rw [List.nil_append, slotsOf_expectedFrom]
  exact expSlots_nodup 0 fs htop htopnn hin

theorem c4_sibling_container_slots_amended_witness :
    (slotsOf (itemsOfOk (extract_entity_items 100
      (([⟨0, [some 0, some 1]⟩, ⟨1, [some 2]⟩] : List FamTop).map mkTop)))).Nodup :=
  c4_sibling_container_slots_amended 100 _ (by decide) (by decide) (by decide)

/-- Whether a loop-body outcome is non-raising. -/
def isOkE (e : Except Unit (Option CLItem)) : Bool :=
  match e with
  | .ok _ => true
  | .error _ => false

theorem dictGet_dictSet_ne (es : List (String × PyVal)) (k k2 : String) (v : PyVal)
    (h : k2 ≠ k) : dictGet (dictSet es k v) k2 = dictGet es k2 := by
  have hb : (k2 == k) = false := beq_eq_false_iff_ne.mpr h
  induction es with
  | nil => simp [dictSet, dictGet, List.lookup, hb]
  | cons hd tl ih =>
    obtain ⟨k0, v0⟩ := hd
    by_cases hk : (k0 == k) = true
    · have hk0 : k0 = k := eq_of_beq hk
      subst hk0
      simp [dictSet, dictGet, List.lookup, hb]
    · simp only [dictSet, if_neg hk]
      by_cases h2 : (k2 == k0) = true
      · simp [dictGet, List.lookup, h2]
      · have h2f : (k2 == k0) = false := by
          revert h2
          cases k2 == k0 <;> simp
        simp only [dictGet, List.lookup, h2f] at ih ⊢
        exact ih

/-- C8 (amended): in chest_locator's `normalize_storage` the claimed behavior
holds: every produced row's count is `int(...)` of the resolved Count alias
chain, defaulting to 0 when the conversion fails; its slot is taken only from
an integer-typed Slot value and treated as absent otherwise; and overwriting
the Count and Slot fields with arbitrary values never changes whether the
item's processing raises (failures depend only on the id and display fields).
In anvil_parser's `get_all_storages` the claim fails: tag values are stored
verbatim without coercion and a missing Count aborts extraction of the whole
entity (see the counterexample). -/
theorem c8_field_coercion_amended :
    (∀ es r, normalize_item (PyVal.dict es) = .ok (some r) →
      r.count = (pyToInt (resolveCount es)).getD 0 ∧
      r.slot = (match dictGet es "Slot" with | PyVal.int n => some n | _ => none)) ∧
    (∀ es c sv,
      isOkE (normalize_item (PyVal.dict (dictSet (dictSet es "Count" c) "Slot" sv))) =
        isOkE (normalize_item (PyVal.dict es))) := by
  constructor
  · intro es r h
    simp only [normalize_item] at h
    split at h
    · next rid =>
      split at h
      · simp at h
      · split at h
        · simp at h
        · next dn =>
          simp only [Except.ok.injEq, Option.some.injEq] at h
          constructor
          · rw [← h]
          · rw [← h]
    · next v =>
      split at h <;> simp at h
  · intro es c sv
    have hid : dictGet (dictSet (dictSet es "Count" c) "Slot" sv) "id" = dictGet es "id" := by
      rw [dictGet_dictSet_ne _ _ _ _ (by decide), dictGet_dictSet_ne _ _ _ _ (by decide)]
    have hname : dictGet (dictSet (dictSet es "Count" c) "Slot" sv) "Name" =
        dictGet es "Name" := by
      rw [dictGet_dictSet_ne _ _ _ _ (by decide), dictGet_dictSet_ne _ _ _ _ (by decide)]
    have htag : dictGet (dictSet (dictSet es "Count" c) "Slot" sv) "tag" = dictGet es "tag" := by
      rw [dictGet_dictSet_ne _ _ _ _ (by decide), dictGet_dictSet_ne _ _ _ _ (by decide)]
    have hdisp : displayNameSrc (dictSet (dictSet es "Count" c) "Slot" sv) =
        displayNameSrc es := by
      unfold displayNameSrc
      rw [htag]
    simp only [normalize_item, hid, hname, hdisp]
    cases pyOr (dictGet es "id") (pyOr (dictGet es "Name") (PyVal.str "")) with
    | str rid =>
      by_cases hr : (rid == "") = true
      · simp [hr]
      · simp only [hr]
        cases displayNameSrc es with
        | error e => rfl
        | ok dn => rfl
    | pynone => rfl
    | int n => rfl
    | pfloat s b => rfl
    | list xs => rfl
    | dict ds => rfl

/-- The witness item dict for C8: a string-valued Count (int() fails, yielding
the default 0) and a string-valued Slot (not integer-typed, treated absent). -/
def c8wEs : List (String × PyVal) :=
  [("id", PyVal.str "minecraft:dirt"), ("Count", PyVal.str "abc"), ("Slot", PyVal.str "3")]

/-- The row normalize_item produces on the C8 witness dict. -/
def c8wRow : CLItem := ⟨none, "dirt", 0, PyVal.str "dirt", PyVal.dict c8wEs⟩

theorem c8_field_coercion_amended_witness :
    normalize_item (PyVal.dict c8wEs) = .ok (some c8wRow) ∧
      c8wRow.count = (pyToInt (resolveCount c8wEs)).getD 0 ∧
      c8wRow.slot =
        (match dictGet c8wEs "Slot" with | PyVal.int n => some n | _ => none) := by
  refine ⟨rfl, ?_, ?_⟩
  · exact (c8_field_coercion_amended.1 c8wEs c8wRow rfl).1
  · exact (c8_field_coercion_amended.1 c8wEs c8wRow rfl).2

theorem c6_read_string_amended_witness :
    read_string [0, 2, 195, 40] 0 = read_string_spec [0, 2, 195, 40] 0 ∧
      utf8Decode [195, 40] = none ∧
      bestEffortDecode [195, 40] = latin1Str [195, 40] ∧
      (latin1Str [195, 40]).length = 2 :=
  ⟨c6_read_string_amended.1 [0, 2, 195, 40] 0, rfl,
    c6_read_string_amended.2.1 [195, 40] rfl,
    c6_read_string_amended.2.2 [195, 40]⟩
